import Mathlib

/-!
Verification model of the Amazon Textract invoice PDF processor.

This file gives a shallow embedding, in Lean 4, of the field-extraction and
normalization engine of the repository: the amount/currency parsing
(`src/textract_modules/utils.py`), the header matcher and summary-row
classifier, the line-item table extraction and the invoice-total resolver
(`src/textract_modules/textract_client.py`, `src/textract_modules/config.py`),
together with the per-document orchestration `parse_extracted_data`.

Python strings are modelled as lists of characters (`Text`); Python floats as
exact signed decimals (`Dec`, viewed as rationals through `Dec.toRat`): the
pipeline only constructs such numbers from decimal digit strings, compares
them with zero and formats them, so the decimal model is exact. Python
dictionaries are modelled as association lists in insertion order.
Functions keep the names of the Python functions they embed.
-/

namespace Invoice

/-- Python strings are modelled as lists of unicode characters. -/
abbrev Text := List Char

/-- Convert a Lean string literal to the `Text` model. -/
def ofStr (s : String) : Text := s.data

/-- Whitespace test used by `str.strip` and `str.split`; ASCII whitespace
(the inputs handled by the repository are ASCII plus currency symbols). -/
def isPySpace (c : Char) : Bool := c.isWhitespace

/-- Python `str.strip()`. -/
def pyStrip (t : Text) : Text :=
  ((t.dropWhile isPySpace).reverse.dropWhile isPySpace).reverse

/-- Python `str.lower()` (ASCII case folding; the currency symbols and
punctuation in scope have no case). -/
def toLowerT (t : Text) : Text := t.map Char.toLower

/-- `startsWith pat s` is true when `pat` is an initial segment of `s`. -/
def startsWith : Text → Text → Bool
  | [], _ => true
  | _ :: _, [] => false
  | a :: as, b :: bs => a = b && startsWith as bs

/-- Python `pat in s` substring containment. -/
def occursIn (pat : Text) : Text → Bool
  | [] => startsWith pat []
  | s@(_ :: rest) => startsWith pat s || occursIn pat rest

/-- Python `s.split(c)` for a one-character separator. -/
def splitOnChar (c : Char) : Text → List Text
  | [] => [[]]
  | x :: xs =>
    match splitOnChar c xs with
    | h :: t => if x = c then [] :: h :: t else (x :: h) :: t
    | [] => [[x]]

/-- Number of occurrences of a character, Python `s.count(c)`. -/
def countChar (c : Char) (t : Text) : Nat := (t.filter (fun x => x = c)).length

/-- Digit run converted to a natural number (most significant digit first). -/
def digitsToNat (t : Text) : Nat :=
  t.foldl (fun n c => 10 * n + (c.toNat - '0'.toNat)) 0

/-- The fixed ordered currency symbol list `CURRENCY_SYMBOLS` of
`src/textract_modules/config.py`. -/
def CURRENCY_SYMBOLS : List Char := ['€', '$', '£', '¥', '₹']

/-- A Python float arising in this pipeline: an exact signed decimal
`(-1)^neg * mant / 10^exp`.  The pipeline constructs floats from decimal
digit strings only, and only tests them against zero and formats them, so
this representation is exact. -/
structure Dec where
  neg : Bool
  mant : Nat
  exp : Nat
  deriving DecidableEq, Repr

/-- The rational value of a decimal. -/
def Dec.toRat (d : Dec) : ℚ :=
  (if d.neg then -1 else 1) * (d.mant : ℚ) / (10 : ℚ) ^ d.exp

/-- Python `v > 0` on the decimal model. -/
def Dec.isPos (d : Dec) : Bool := !d.neg && d.mant ≠ 0

/-- Build the decimal for `[sign] ip . fp` from its digit runs. -/
def decOfParts (neg : Bool) (ip fp : Text) : Dec :=
  ⟨neg, digitsToNat (ip ++ fp), fp.length⟩

/-- Match of the regex `[-+]?\d*\.?\d+` anchored at the start of `s`,
with the greedy backtracking semantics of `re`: an optional sign, a maximal
digit run, then either a decimal point followed by a nonempty digit run, or
nothing; the whole match needs at least one digit.  Returns the matched
characters. -/
def matchNumAt (s : Text) : Option Text :=
  let sgnRest : Text × Text :=
    match s with
    | c :: rest => if c = '-' || c = '+' then ([c], rest) else ([], s)
    | [] => ([], [])
  let sgn := sgnRest.1
  let t := sgnRest.2
  let d1 := t.takeWhile Char.isDigit
  let t1 := t.dropWhile Char.isDigit
  match t1 with
  | '.' :: t2 =>
    let d2 := t2.takeWhile Char.isDigit
    if d2 ≠ [] then some (sgn ++ d1 ++ '.' :: d2)
    else if d1 ≠ [] then some (sgn ++ d1) else none
  | _ => if d1 ≠ [] then some (sgn ++ d1) else none

/-- `re.search` for the number regex: leftmost match wins. -/
def searchNumber : Text → Option Text
  | [] => matchNumAt []
  | s@(_ :: rest) =>
    match matchNumAt s with
    | some m => some m
    | none => searchNumber rest

/-- Python `float` applied to a string of the shape produced by
`matchNumAt`: optional sign, digits, optional fractional part. -/
def pyFloat (t : Text) : Dec :=
  let negRest : Bool × Text :=
    match t with
    | '-' :: rest => (true, rest)
    | '+' :: rest => (false, rest)
    | _ => (false, t)
  let ip := negRest.2.takeWhile Char.isDigit
  let rest := negRest.2.dropWhile Char.isDigit
  let fp :=
    match rest with
    | '.' :: r => r.takeWhile Char.isDigit
    | _ => []
  decOfParts negRest.1 ip fp

/-- Python `float(cell)` as used for the quantity fallback: a full-string
decimal literal `[sign](digits[.digits] | .digits | digits.)`.
(The `inf`/`nan`/exponent spellings accepted by Python are not modelled;
the fallback is only reached for cells containing no digit at all, where
such spellings are the only ones that could succeed.) -/
def pyFloatFull (t : Text) : Option Dec :=
  let negRest : Bool × Text :=
    match t with
    | '-' :: rest => (true, rest)
    | '+' :: rest => (false, rest)
    | _ => (false, t)
  let d1 := negRest.2.takeWhile Char.isDigit
  let r1 := negRest.2.dropWhile Char.isDigit
  match r1 with
  | [] => if d1 ≠ [] then some (decOfParts negRest.1 d1 []) else none
  | '.' :: r2 =>
    let d2 := r2.takeWhile Char.isDigit
    let r3 := r2.dropWhile Char.isDigit
    if r3 = [] ∧ (d1 ≠ [] ∨ d2 ≠ []) then some (decOfParts negRest.1 d1 d2) else none
  | _ => none

/-- `clean_currency_text` of `src/textract_modules/utils.py`:
detect the first currency symbol, strip symbols and commas, disambiguate
the multi-dot European thousands format, then search for the first number. -/
def clean_currency_text (text : Text) : Option Dec × Text :=
  if text = [] then (none, [])
  else
    let currency : Text :=
      match CURRENCY_SYMBOLS.find? (fun sym => text.contains sym) with
      | some sym => [sym]
      | none => []
    -- cleaned = text minus every currency symbol, minus commas, stripped
    let cleaned := pyStrip ((text.filter (fun c => ¬ CURRENCY_SYMBOLS.contains c)).filter
      (fun c => c ≠ ','))
    let cleaned :=
      if cleaned.contains '.' ∧ countChar '.' cleaned > 1 then
        let parts := splitOnChar '.' cleaned
        if (parts.getLastD []).length = 2 then
          (parts.dropLast).foldl (· ++ ·) [] ++ '.' :: parts.getLastD []
        else cleaned.filter (fun c => c ≠ '.')
      else cleaned
    match searchNumber cleaned with
    | some m => (some (pyFloat m), currency)
    | none => (none, currency)

/-- The value slot of a parsed amount: a Python float, a raw string
(parse-failure sentinel), or `None`. -/
inductive AVal where
  | num (d : Dec)
  | str (t : Text)
  | null
  deriving DecidableEq, Repr

/-- The amount dictionary `{value, currency, formatted}`. -/
structure Amount where
  value : AVal
  currency : Text
  formatted : Text
  deriving DecidableEq, Repr

/-- Is the value slot numeric (Python `isinstance(v, (int, float))`)? -/
def AVal.isNum : AVal → Bool
  | .num _ => true
  | _ => false

/-- Python `v > 0` on the value slot (false on the string and null
sentinels, as in the guarded `isinstance` checks of the source). -/
def AVal.isPosNum : AVal → Bool
  | .num d => d.isPos
  | _ => false

/-- `|d| * 100` rounded half-to-even to a natural number of cents, the
rounding used by Python fixed-point format strings. -/
def Dec.cents (d : Dec) : Nat :=
  if d.exp ≤ 2 then d.mant * 10 ^ (2 - d.exp)
  else
    let den := 10 ^ (d.exp - 2)
    let q := d.mant / den
    let r := d.mant % den
    if 2 * r > den then q + 1
    else if 2 * r < den then q
    else if q % 2 = 0 then q else q + 1

/-- Group a reversed digit list in threes with comma separators,
producing the reversed grouped list. -/
def groupRev : Text → Text
  | d1 :: d2 :: d3 :: d4 :: rest => d1 :: d2 :: d3 :: ',' :: groupRev (d4 :: rest)
  | short => short

/-- Python `f"{v:,.2f}"`: two decimals, thousands separators, sign. -/
def formatDec2 (d : Dec) : Text :=
  let sgn : Text := if d.neg then ['-'] else []
  let cents := d.cents
  let ip := cents / 100
  let fp := cents % 100
  sgn ++ (groupRev (Nat.toDigits 10 ip).reverse).reverse ++
    '.' :: [Char.ofNat ('0'.toNat + fp / 10), Char.ofNat ('0'.toNat + fp % 10)]

/-- `parse_amount_with_currency` of `src/textract_modules/utils.py`. -/
def parse_amount_with_currency (text : Text) : Amount :=
  if text = [] then ⟨.str [], [], []⟩
  else
    match clean_currency_text text with
    | (some v, currency) =>
      let formatted := formatDec2 v
      let formatted := if currency ≠ [] then currency ++ ' ' :: formatted else formatted
      ⟨.num v, currency, formatted⟩
    | (none, _) => ⟨.str text, [], text⟩

/-! ## Header matcher, summary-row classifier and config tables -/

/-- Python regex `\w` (ASCII scope). -/
def isWordChar (c : Char) : Bool := c.isAlphanum || c = '_'

/-- Python `s.split()` — split on whitespace runs, dropping empty pieces. -/
def pySplitWs (t : Text) : List Text :=
  (splitOnChar ' ' (t.map (fun c => if isPySpace c then ' ' else c))).filter (fun w => w ≠ [])

/-- The cleaning step of `match_header_enhanced`: lower-case, strip,
replace every character outside `[\w\s/]` by a space, collapse whitespace. -/
def header_clean (t : Text) : Text :=
  let lowered := pyStrip (toLowerT t)
  let subbed := lowered.map (fun c => if isWordChar c || isPySpace c || c = '/' then c else ' ')
  List.intercalate [' '] (pySplitWs subbed)

/-- Search for `\b pat \b` (with `pat` a literal) inside `s`, tracking
whether the previous character is a word character.  All header synonyms
begin and end with word characters, so the boundary requirements are:
no word character directly before, none directly after. -/
def wbAux (pat : Text) : Bool → Text → Bool
  | prev, s =>
    (startsWith pat s && !prev &&
      (match s.drop pat.length with
       | [] => true
       | c :: _ => !isWordChar c)) ||
    (match s with
     | [] => false
     | c :: rest => wbAux pat (isWordChar c) rest)

/-- `re.search(r'\b' + re.escape(pat) + r'\b', s)` as a boolean. -/
def wordBoundaryMatch (pat s : Text) : Bool := wbAux pat false s

/-- The three checks applied to each synonym by `match_header_enhanced`:
exact equality, whole-word match, substring containment. -/
def matchesPattern (pat clean : Text) : Bool :=
  clean = pat || wordBoundaryMatch pat clean || occursIn pat clean

/-- The four semantic column roles of `HEADER_PATTERNS`. -/
inductive FieldKind where
  | description
  | quantity
  | unitprice
  | amount
  deriving DecidableEq, Repr

/-- `HEADER_PATTERNS` of `src/textract_modules/config.py`, in declaration
order (duplicated synonyms kept as in the source). -/
def HEADER_PATTERNS : List (FieldKind × List Text) :=
  [ (.description, [ofStr ("description"), ofStr ("service"), ofStr ("item"), ofStr ("details"),
      ofStr ("work performed"), ofStr ("service description"), ofStr ("product"), ofStr ("article"),
      ofStr ("task"), ofStr ("work"), ofStr ("desc")]),
    (.quantity, [ofStr ("qty"), ofStr ("quantity"), ofStr ("hours"), ofStr ("units"), ofStr ("hrs/qty"),
      ofStr ("hrs"), ofStr ("units"), ofStr ("amount"), ofStr ("number"), ofStr ("count"), ofStr ("count"),
      ofStr ("hrs"), ofStr ("hours"), ofStr ("hrs qty"), ofStr ("hrs/qty")]),
    (.unitprice, [ofStr ("unit price"), ofStr ("price"), ofStr ("rate"), ofStr ("rate/price"),
      ofStr ("unit cost"), ofStr ("price per unit"), ofStr ("cost"), ofStr ("rate"), ofStr ("unit rate"),
      ofStr ("each"), ofStr ("rate price")]),
    (.amount, [ofStr ("amount"), ofStr ("total"), ofStr ("sub total"), ofStr ("line total"),
      ofStr ("extended amount"), ofStr ("sum"), ofStr ("value"), ofStr ("cost"), ofStr ("charge"),
      ofStr ("price"), ofStr ("subtotal"), ofStr ("sub_total")]) ]

/-- `match_header_enhanced` of `src/textract_modules/utils.py`: classify a
header cell text into the first field (declaration order) with a matching
synonym, or none. -/
def match_header_enhanced (t : Text) : Option FieldKind :=
  if t = [] then none
  else
    let clean := header_clean t
    (HEADER_PATTERNS.find? (fun fp => fp.2.any (fun pat => matchesPattern pat clean))).map
      (fun fp => fp.1)

/-- `SUMMARY_INDICATORS` of `src/textract_modules/config.py`. -/
def SUMMARY_INDICATORS : List Text :=
  [ofStr ("subtotal"), ofStr ("sub total"), ofStr ("sub-total"), ofStr ("sub_total"), ofStr ("total"),
   ofStr ("grand total"), ofStr ("final total"), ofStr ("net total"), ofStr ("gross total"),
   ofStr ("vat"), ofStr ("tax"), ofStr ("vat 19%"), ofStr ("sales tax"), ofStr ("discount"),
   ofStr ("adjustment"), ofStr ("fee discount"), ofStr ("balance"), ofStr ("amount due"),
   ofStr ("total due"), ofStr ("fees and disbursements"), ofStr ("gross amount"),
   ofStr ("net amount"), ofStr ("incl. vat"), ofStr ("including vat"), ofStr ("excl. vat"),
   ofStr ("adjusted fees"), ofStr ("total adjusted")]

/-- `is_summary_row` of `src/textract_modules/utils.py`. -/
def is_summary_row (row : List Text) : Bool :=
  let combined := toLowerT (List.intercalate [' '] row)
  SUMMARY_INDICATORS.any (fun ind => occursIn ind combined)

/-- `TOTAL_KEYWORDS` of `src/textract_modules/config.py`. -/
def TOTAL_KEYWORDS : List (Text × Nat) :=
  [(ofStr ("total"), 1), (ofStr ("subtotal"), 2), (ofStr ("amount due"), 8), (ofStr ("invoice total"), 7),
   (ofStr ("grand total"), 9), (ofStr ("final total"), 10), (ofStr ("total due"), 8),
   (ofStr ("gross total"), 11), (ofStr ("gross amount"), 12), (ofStr ("total amount"), 6),
   (ofStr ("net amount"), 3), (ofStr ("total incl"), 13), (ofStr ("incl. vat"), 14),
   (ofStr ("including vat"), 14), (ofStr ("total fees and disbursements"), 15),
   (ofStr ("balance due"), 8), (ofStr ("amount payable"), 7)]

/-- `DATE_KEYWORDS` of `src/textract_modules/config.py`. -/
def DATE_KEYWORDS : List Text :=
  [ofStr ("invoice date"), ofStr ("date"), ofStr ("bill date"), ofStr ("issued")]

/-- `PAYMENT_TERMS_KEYWORDS` of `src/textract_modules/config.py`. -/
def PAYMENT_TERMS_KEYWORDS : List Text := [ofStr ("payment"), ofStr ("terms"), ofStr ("due")]

/-! ## Line-item extraction from tables -/

/-- Sparse row of a table: column index to cell text, insertion order. -/
abbrev RowDict := List (Nat × Text)

/-- Sparse table grid of one page: row index to sparse row. -/
abbrev PageDict := List (Nat × RowDict)

/-- Input to `extract_line_items_from_tables`: page number to grid. -/
abbrev TablesDict := List (Nat × PageDict)

/-- Lookup in an association list, Python `d.get(k)`. -/
def assocGet (d : List (Nat × α)) (k : Nat) : Option α :=
  (d.find? (fun p => p.1 = k)).map (fun p => p.2)

/-- Insert into an ascending list of keys. -/
def insertSorted (n : Nat) : List Nat → List Nat
  | [] => [n]
  | m :: rest => if n ≤ m then n :: m :: rest else m :: insertSorted n rest

/-- Python `sorted` on the (distinct) keys of a dict. -/
def sortNat (l : List Nat) : List Nat := l.foldr insertSorted []

/-- `max((max(r.keys()) for r in rows_dict.values()), default=0)`.
In Python the inner `max` raises on an empty row dict; empty rows cannot
arise from the table builders in this repository (every stored row holds
at least one cell), and the model uses 0 for them. -/
def maxColsOf (rows_dict : PageDict) : Nat :=
  rows_dict.foldl (fun m r => max m (r.2.foldl (fun m2 c => max m2 c.1) 0)) 0

/-- Materialize a sparse page grid into dense rows: row keys ascending,
columns `1..max_cols`, absent cells becoming the empty string. -/
def materializeRows (rows_dict : PageDict) : List (List Text) :=
  let max_cols := maxColsOf rows_dict
  (sortNat (rows_dict.map (fun r => r.1))).map (fun r =>
    let rd := (assocGet rows_dict r).getD []
    (List.range max_cols).map (fun c => (assocGet rd (c + 1)).getD []))

/-- One line item: a dict with up to four optional keys. -/
structure LineItem where
  Description : Option Text
  Quantity : Option Dec
  UnitPrice : Option Amount
  Amount : Option Invoice.Amount
  deriving DecidableEq, Repr

/-- The empty `line_item = {}`. -/
def LineItem.empty : LineItem := ⟨none, none, none, none⟩

/-- A candidate header row: its index, per-column field assignment, and
number of matched columns. -/
structure HeaderCand where
  idx : Nat
  headers : List (Option FieldKind)
  count : Nat
  deriving DecidableEq, Repr

/-- Field assignment of a row by the header matcher. -/
def headerMatchesOf (row : List Text) : List (Option FieldKind) :=
  row.map match_header_enhanced

/-- Number of matched cells. -/
def countSome (l : List (Option FieldKind)) : Nat := (l.filter (fun h => h.isSome)).length

/-- Primary header scan: rows `0 .. min 4 (length) - 1`, qualifying with
at least two matched cells. -/
def potential_headers (rows : List (List Text)) : List HeaderCand :=
  ((List.range (min 4 rows.length)).map (fun i =>
      let hm := headerMatchesOf (rows.getD i [])
      HeaderCand.mk i hm (countSome hm))).filter (fun c => 2 ≤ c.count)

/-- The loose keyword hints of the relaxed fallback header scan. -/
def HEADER_HINTS : List Text :=
  [ofStr ("service"), ofStr ("description"), ofStr ("rate"), ofStr ("price"), ofStr ("amount"),
   ofStr ("total"), ofStr ("qty"), ofStr ("hours")]

/-- Fallback header scan over the first three rows: any row whose joined
lower-cased text contains a hint keyword and that has at least one matched
cell. -/
def fallback_headers (rows : List (List Text)) : List HeaderCand :=
  (rows.take 3).enum.filterMap (fun ir =>
    let row_text := toLowerT (List.intercalate [' '] ir.2)
    if HEADER_HINTS.any (fun w => occursIn w row_text) then
      let hm := headerMatchesOf ir.2
      if 1 ≤ countSome hm then some (HeaderCand.mk ir.1 hm (countSome hm)) else none
    else none)

/-- One step of the Python `max` scan with key `(count, -idx)`: the next
candidate replaces the running best only when its key is strictly
greater (more matches, or equally many at a strictly lower index). -/
def pickStep (b x : HeaderCand) : HeaderCand :=
  if b.count < x.count ∨ (b.count = x.count ∧ x.idx < b.idx) then x else b

/-- Python `max(potential_headers, key=lambda x: (x[2], -x[0]))`: the
first candidate attaining the lexicographically greatest (count, -idx). -/
def pickHeader : List HeaderCand → Option HeaderCand
  | [] => none
  | c :: rest => some (rest.foldl pickStep c)

/-- The per-cell loop of the data-row processing: walk the cells with the
per-column field assignment, building the line item and the
`has_meaningful_data` flag; a description cell containing a summary
indicator aborts the whole row (Python `break` with the flag reset). -/
def processCells (headers : List (Option FieldKind)) :
    List Text → Nat → LineItem → Bool → LineItem × Bool
  | [], _, item, m => (item, m)
  | cell :: rest, i, item, m =>
    match headers.getD i none with
    | none => processCells headers rest (i + 1) item m
    | some field =>
      let cv := pyStrip cell
      if cv = [] then processCells headers rest (i + 1) item m
      else
        match field with
        | .description =>
          if SUMMARY_INDICATORS.any (fun ind => occursIn ind (toLowerT cv)) then (item, false)
          else processCells headers rest (i + 1) { item with Description := some cv } true
        | .quantity =>
          match (parse_amount_with_currency cv).value with
          | .num d => processCells headers rest (i + 1) { item with Quantity := some d } true
          | _ =>
            match pyFloatFull cv with
            | some d => processCells headers rest (i + 1) { item with Quantity := some d } true
            | none => processCells headers rest (i + 1) item m
        | .unitprice =>
          let price_info := parse_amount_with_currency cv
          processCells headers rest (i + 1) { item with UnitPrice := some price_info }
            (m || price_info.value.isNum)
        | .amount =>
          let amount_info := parse_amount_with_currency cv
          processCells headers rest (i + 1) { item with Amount := some amount_info }
            (m || amount_info.value.isNum)

/-- Processing of one data row: skip blank rows and summary rows, then
keep the built item only when it has meaningful data. -/
def processDataRow (headers : List (Option FieldKind)) (row : List Text) : Option LineItem :=
  if ¬ row.any (fun cell => pyStrip cell ≠ []) then none
  else if is_summary_row row then none
  else
    let r := processCells headers row 0 LineItem.empty false
    if r.2 then some r.1 else none

/-- Line items of one page grid: materialize, find the header row
(primary scan, then relaxed fallback), process the rows after it. -/
def processPage (rows_dict : PageDict) : List LineItem :=
  if rows_dict = [] then []
  else
    let rows := materializeRows rows_dict
    if rows.length < 2 then []
    else
      let cands := potential_headers rows
      let cands := if cands = [] then fallback_headers rows else cands
      match pickHeader cands with
      | none => []
      | some c => (rows.drop (c.idx + 1)).filterMap (processDataRow c.headers)

/-- `extract_line_items_from_tables` of
`src/textract_modules/textract_client.py`. -/
def extract_line_items_from_tables (tables : TablesDict) : List LineItem :=
  tables.foldl (fun acc page => acc ++ processPage page.2) []

/-! ## Regex machinery for the free-text fallbacks

The fallback patterns of `find_invoice_number` and `find_invoice_total`
are hand-compiled: literal words (case-insensitive), greedy character
classes with the backtracking order of `re` (longest first), capture
group at the end of each pattern. -/

/-- Consume a case-insensitive literal. -/
def litCI : Text → Text → Option Text
  | [], s => some s
  | _ :: _, [] => none
  | p :: ps, c :: cs => if p.toLower = c.toLower then litCI ps cs else none

/-- Backtracking driver for a greedy class star: try the continuation
after dropping `j` characters, for `j` from the given bound down to 0. -/
def tryFrom (s : Text) (k : Text → Option α) : Nat → Option α
  | 0 => k s
  | j + 1 =>
    match k (s.drop (j + 1)) with
    | some r => some r
    | none => tryFrom s k j

/-- Greedy `cls*` followed by the continuation. -/
def starCls (p : Char → Bool) (s : Text) (k : Text → Option α) : Option α :=
  tryFrom s k (s.takeWhile p).length

/-- Backtracking driver for a greedy class plus (at least one character). -/
def plusTry (s : Text) (k : Text → Option α) : Nat → Option α
  | 0 => none
  | j + 1 =>
    match k (s.drop (j + 1)) with
    | some r => some r
    | none => plusTry s k j

/-- Greedy `cls+` followed by the continuation. -/
def plusCls (p : Char → Bool) (s : Text) (k : Text → Option α) : Option α :=
  plusTry s k (s.takeWhile p).length

/-- Character class `[A-Z0-9\-]` under `re.IGNORECASE`. -/
def isAZ09dash (c : Char) : Bool := c.isAlpha || c.isDigit || c = '-'

/-- Trailing capture `([A-Z0-9\-]+)` with a minimum length. -/
def captureAZ09 (minLen : Nat) (s : Text) : Option Text :=
  let g := s.takeWhile isAZ09dash
  if minLen ≤ g.length then some g else none

/-- `(?:number|no|#)[\s:]*([A-Z0-9\-]+)` — the shared tail of the first
two invoice-number patterns, with left-to-right alternative order. -/
def invTail (s : Text) : Option Text :=
  let afterAlt (s3 : Text) : Option Text :=
    starCls (fun c => isPySpace c || c = ':') s3 (captureAZ09 1)
  match (litCI (ofStr ("number")) s).bind afterAlt with
  | some g => some g
  | none =>
    match (litCI (ofStr ("no")) s).bind afterAlt with
    | some g => some g
    | none => (litCI (ofStr ("#")) s).bind afterAlt

/-- `invoice\s*(?:number|no|#)[\s:]*([A-Z0-9\-]+)` anchored at `s`. -/
def invPat1At (s : Text) : Option Text :=
  (litCI (ofStr ("invoice")) s).bind (fun s1 => starCls isPySpace s1 invTail)

/-- `inv[\s\-]*(?:number|no|#)[\s:]*([A-Z0-9\-]+)` anchored at `s`. -/
def invPat2At (s : Text) : Option Text :=
  (litCI (ofStr ("inv")) s).bind (fun s1 =>
    starCls (fun c => isPySpace c || c = '-') s1 invTail)

/-- `invoice[\s:]+([A-Z0-9\-]{3,})` anchored at `s`. -/
def invPat3At (s : Text) : Option Text :=
  (litCI (ofStr ("invoice")) s).bind (fun s1 =>
    plusCls (fun c => isPySpace c || c = ':') s1 (captureAZ09 3))

/-- `#([A-Z0-9\-]{3,})` anchored at `s`. -/
def invPat4At (s : Text) : Option Text :=
  match s with
  | '#' :: s1 => captureAZ09 3 s1
  | _ => none

/-- `re.search`: scan start positions left to right. -/
def searchPat (patAt : Text → Option Text) : Text → Option Text
  | [] => patAt []
  | s@(_ :: rest) =>
    match patAt s with
    | some g => some g
    | none => searchPat patAt rest

/-- The key substrings checked before the regex fallback of
`find_invoice_number`. -/
def INVOICE_NUMBER_KEY_TERMS : List Text :=
  [ofStr ("invoice number"), ofStr ("invoice no"), ofStr ("invoice #"), ofStr ("inv number"),
   ofStr ("inv no")]

/-- `find_invoice_number` of `src/textract_modules/utils.py`: key-value
search first, then the four regex patterns over the full text. -/
def find_invoice_number (kv : List (Text × Text)) (all_text : Text) : Option Text :=
  match kv.find? (fun p =>
      INVOICE_NUMBER_KEY_TERMS.any (fun term => occursIn term p.1) && pyStrip p.2 ≠ []) with
  | some p => some (pyStrip p.2)
  | none =>
    match searchPat invPat1At all_text with
    | some g => some (pyStrip g)
    | none =>
      match searchPat invPat2At all_text with
      | some g => some (pyStrip g)
      | none =>
        match searchPat invPat3At all_text with
        | some g => some (pyStrip g)
        | none => (searchPat invPat4At all_text).map pyStrip

/-! ## Invoice-total resolver -/

/-- Tier A of `find_invoice_total`: scan the key-value pairs against
`TOTAL_KEYWORDS`, boosting exact matches (+5) and VAT/tax-inclusive keys
(+3), keeping the single best (strictly greater priority replaces). -/
def kv_best (kv : List (Text × Text)) : Option Amount × Nat :=
  kv.foldl (fun best p =>
    let kLower := pyStrip (toLowerT p.1)
    TOTAL_KEYWORDS.foldl (fun best kw =>
      if occursIn kw.1 kLower then
        let amount_info := parse_amount_with_currency p.2
        if amount_info.value.isPosNum then
          let actual := kw.2
          let actual :=
            if kLower = kw.1 ∨ pyStrip (kLower.filter (fun c => c ≠ ':')) = kw.1 then
              actual + 5
            else actual
          let actual :=
            if [ofStr ("incl"), ofStr ("including"), ofStr ("with vat"), ofStr ("with tax")].any
                (fun term => occursIn term kLower) then actual + 3
            else actual
          if best.2 < actual then (some amount_info, actual) else best
        else best
      else best) best) (none, 0)

/-- Tier B candidate collection of `find_invoice_total`: scan the table
totals against `TOTAL_KEYWORDS` with the fixed pattern bonuses.  (The
human-readable source label carried alongside each candidate in Python
feeds only debug logging and is not modelled.) -/
def table_candidates (table_totals : List (Text × Text)) : List (Amount × Nat) :=
  table_totals.foldl (fun acc p =>
    let lower := toLowerT p.1
    TOTAL_KEYWORDS.foldl (fun acc kw =>
      if occursIn kw.1 lower then
        let amount_info := parse_amount_with_currency p.2
        if amount_info.value.isPosNum then
          let actual := kw.2
          let actual :=
            if occursIn (ofStr ("fees and disbursements")) lower then actual + 10
            else if occursIn (ofStr ("gross")) lower &&
                (occursIn (ofStr ("incl")) lower || occursIn (ofStr ("vat")) lower) then actual + 8
            else if occursIn (ofStr ("grand total")) lower then actual + 7
            else if occursIn (ofStr ("final")) lower then actual + 6
            else actual
          acc ++ [(amount_info, actual)]
        else acc
      else acc) acc) []

/-- `table_candidates.sort(key priority, reverse=True)` followed by
`[0]`: the first candidate attaining the maximal priority (Python sort is
stable). -/
def pickBestCand : List (Amount × Nat) → Option (Amount × Nat)
  | [] => none
  | c :: rest => some (rest.foldl (fun b x => if b.2 < x.2 then x else b) c)

/-- The capture `([€$£¥₹]?\s*[0-9,]+\.?\d*)` of the tier C patterns,
returning the captured text and the remainder after the match. -/
def totGroup (s : Text) : Option (Text × Text) :=
  let core (t : Text) : Option Nat :=
    let w := (t.takeWhile isPySpace).length
    let t1 := t.drop w
    let dcm := (t1.takeWhile (fun c => c.isDigit || c = ',')).length
    if dcm = 0 then none
    else
      match t1.drop dcm with
      | '.' :: r2 => some (w + dcm + 1 + (r2.takeWhile Char.isDigit).length)
      | _ => some (w + dcm)
  match s with
  | c :: r =>
    if CURRENCY_SYMBOLS.contains c then
      match core r with
      | some n => some (s.take (n + 1), s.drop (n + 1))
      | none => (core s).map (fun n => (s.take n, s.drop n))
    else (core s).map (fun n => (s.take n, s.drop n))
  | [] => none

/-- A tier C pattern anchored at `s`: literal words joined by `\s+`, then
greedy `[^0-9]*`, then the amount capture. -/
def phraseThen : List Text → Text → Option (Text × Text)
  | [], s => starCls (fun c => ¬ c.isDigit) s totGroup
  | [w], s => (litCI w s).bind (fun s1 => starCls (fun c => ¬ c.isDigit) s1 totGroup)
  | w :: rest, s => (litCI w s).bind (fun s1 => plusCls isPySpace s1 (phraseThen rest))

/-- `re.finditer` for a tier C pattern: non-overlapping matches scanned
left to right, resuming after each match; fuel bounds the scan. -/
def finditerAux (words : List Text) : Nat → Text → List Text
  | 0, _ => []
  | _, [] =>
    match phraseThen words [] with
    | some gr => [gr.1]
    | none => []
  | fuel + 1, s@(_ :: rest) =>
    match phraseThen words s with
    | some gr => gr.1 :: finditerAux words fuel gr.2
    | none => finditerAux words fuel rest

/-- All captured groups of a tier C pattern over the text. -/
def finditer (words : List Text) (s : Text) : List Text :=
  finditerAux words (s.length + 1) s

/-- The seven tier C patterns of `find_invoice_total`, as word lists with
their fixed priorities. -/
def TOTAL_REGEX_PATTERNS : List (List Text × Nat) :=
  [([ofStr ("total"), ofStr ("fees"), ofStr ("and"), ofStr ("disbursements")], 20),
   ([ofStr ("gross"), ofStr ("amount"), ofStr ("incl")], 18),
   ([ofStr ("grand"), ofStr ("total")], 15),
   ([ofStr ("final"), ofStr ("total")], 15),
   ([ofStr ("total"), ofStr ("due")], 12),
   ([ofStr ("amount"), ofStr ("due")], 12),
   ([ofStr ("invoice"), ofStr ("total")], 10)]

/-- Tier C of `find_invoice_total`: every positive-valued match is a
candidate at the fixed pattern priority, replacing the running best only
when strictly greater. -/
def tierC (all_text : Text) (best0 : Option Amount × Nat) : Option Amount × Nat :=
  TOTAL_REGEX_PATTERNS.foldl (fun best pp =>
    (finditer pp.1 all_text).foldl (fun best g =>
      let amount_info := parse_amount_with_currency g
      if amount_info.value.isPosNum then
        if best.2 < pp.2 then (some amount_info, pp.2) else best
      else best) best) best0

/-- The running best after tiers A and B. -/
def bestAfterAB (kv table_totals : List (Text × Text)) : Option Amount × Nat :=
  let best := kv_best kv
  match pickBestCand (table_candidates table_totals) with
  | some c => if best.2 < c.2 then (some c.1, c.2) else best
  | none => best

/-- `find_invoice_total` of `src/textract_modules/utils.py`: tier A
(key-value pairs), tier B (table totals, replacing only when strictly
greater), tier C (regex fallback, consulted only when the best priority is
below 5), and the null-amount default. -/
def find_invoice_total (kv table_totals : List (Text × Text)) (all_text : Text) : Amount :=
  let best := bestAfterAB kv table_totals
  let best := if best.2 < 5 then tierC all_text best else best
  match best.1 with
  | some a => a
  | none => ⟨.null, [], []⟩

/-! ## Per-document orchestration: `parse_extracted_data` -/

/-- The layout categories read by `parse_extracted_data` (each item
reduced to its text; the unused categories and confidences of the richer
layout dict are not read by the parser). -/
structure Layout where
  titles : List Text
  headers : List Text
  section_headers : List Text
  paragraphs : List Text
  lists : List Text
  deriving DecidableEq, Repr

/-- The structured results of one completed analysis job, as read by
`parse_extracted_data`: form key/value pairs, layout texts, materialized
table rows and query answers (empty answer = unanswered; confidences are
not read by the parser). -/
structure Results where
  layout : Layout
  forms : List (Text × Text)
  tables : List (List (List Text))
  queries : List (Text × Text)
  deriving DecidableEq, Repr

/-- Python dict insert: overwrite in place when the key exists, append
otherwise. -/
def dictInsert (d : List (Text × Text)) (k v : Text) : List (Text × Text) :=
  if d.any (fun p => p.1 = k) then d.map (fun p => if p.1 = k then (k, v) else p)
  else d ++ [(k, v)]

/-- The key-value dict built from the forms: lower-cased stripped key,
stripped value, both required non-empty. -/
def buildKvPairs (forms : List (Text × Text)) : List (Text × Text) :=
  forms.foldl (fun kv f =>
    let key := pyStrip (toLowerT f.1)
    let value := pyStrip f.2
    if key ≠ [] ∧ value ≠ [] then dictInsert kv key value else kv) []

/-- `all_text`: layout texts, then `key + " " + value` for every kv pair,
then the space-joined rows of every table, all joined by spaces. -/
def buildAllText (results : Results) (kv : List (Text × Text)) : Text :=
  let parts :=
    results.layout.titles ++ results.layout.headers ++ results.layout.section_headers ++
      results.layout.paragraphs ++ results.layout.lists ++
      kv.map (fun p => p.1 ++ ' ' :: p.2) ++
      results.tables.foldl (fun acc t =>
        acc ++ t.map (fun row => List.intercalate [' '] row)) []
  List.intercalate [' '] parts

/-- `tables_dict`: page numbers `1..`, row and column indices `1..`. -/
def buildTablesDict (tables : List (List (List Text))) : TablesDict :=
  tables.enum.map (fun ti =>
    (ti.1 + 1, ti.2.enum.map (fun ri =>
      (ri.1 + 1, ri.2.enum.map (fun ci => (ci.1 + 1, ci.2))))))

/-- `table_totals`: every row whose joined lower-cased text contains
"total", keyed by that lower-cased text, valued by the original join. -/
def buildTableTotals (tables_dict : TablesDict) : List (Text × Text) :=
  tables_dict.foldl (fun tt page =>
    page.2.foldl (fun tt r =>
      let row_values := r.2.map (fun c => c.2)
      let joined := List.intercalate [' '] row_values
      let row_text := toLowerT joined
      if occursIn (ofStr ("total")) row_text then dictInsert tt row_text joined else tt) tt) []

/-- The structured invoice record with its five fields. -/
structure InvoiceRecord where
  InvoiceNumber : Option Text
  InvoiceDate : Option Text
  LineItems : List LineItem
  InvoiceTotal : Amount
  PaymentTerms : Option Text
  deriving DecidableEq, Repr

/-- The initialized record of `parse_extracted_data` before any field is
resolved: null/empty defaults, null-valued total. -/
def defaultRecord : InvoiceRecord := ⟨none, none, [], ⟨.null, [], []⟩, none⟩

/-- The heuristic stage of `parse_extracted_data`: build the kv dict, the
full text, the table structures, then resolve each of the five fields. -/
def parse_heuristic (results : Results) : InvoiceRecord :=
  let kv := buildKvPairs results.forms
  let all_text := buildAllText results kv
  let tables_dict := buildTablesDict results.tables
  let table_totals := buildTableTotals tables_dict
  { InvoiceNumber := find_invoice_number kv all_text
    InvoiceDate := (kv.find? (fun p =>
        DATE_KEYWORDS.any (fun w => occursIn w p.1) && pyStrip p.2 ≠ [])).map
      (fun p => pyStrip p.2)
    LineItems := extract_line_items_from_tables tables_dict
    InvoiceTotal := find_invoice_total kv table_totals all_text
    PaymentTerms := (kv.find? (fun p =>
        PAYMENT_TERMS_KEYWORDS.any (fun w => occursIn w p.1) && 20 < p.2.length)).map
      (fun p => pyStrip p.2) }

/-- The four recognized query questions of the override map. -/
def QUERY_INVOICE_NUMBER : Text := ofStr ("What is the invoice number?")

/-- The invoice-date question. -/
def QUERY_INVOICE_DATE : Text := ofStr ("What is the invoice date?")

/-- The total-amount question. -/
def QUERY_TOTAL_AMOUNT : Text := ofStr ("What is the total amount?")

/-- The payment-terms question. -/
def QUERY_PAYMENT_TERMS : Text := ofStr ("What is the payment terms?")

/-- The query-override loop at the end of `parse_extracted_data`: a
recognized question with a truthy answer overwrites the corresponding
field; the total-amount answer only when it parses to a numeric amount. -/
def applyQueryOverrides (parsed : InvoiceRecord) (queries : List (Text × Text)) :
    InvoiceRecord :=
  queries.foldl (fun parsed q =>
    if (q.1 = QUERY_INVOICE_NUMBER ∨ q.1 = QUERY_INVOICE_DATE ∨ q.1 = QUERY_TOTAL_AMOUNT ∨
        q.1 = QUERY_PAYMENT_TERMS) ∧ q.2 ≠ [] then
      if q.1 = QUERY_TOTAL_AMOUNT then
        let amount_info := parse_amount_with_currency q.2
        if amount_info.value.isNum then { parsed with InvoiceTotal := amount_info } else parsed
      else if q.1 = QUERY_INVOICE_NUMBER then { parsed with InvoiceNumber := some q.2 }
      else if q.1 = QUERY_INVOICE_DATE then { parsed with InvoiceDate := some q.2 }
      else { parsed with PaymentTerms := some q.2 }
    else parsed) parsed

/-- `parse_extracted_data` of `src/textract_modules/textract_client.py`:
the heuristic stage followed by the query-override stage. -/
def parse_extracted_data (results : Results) : InvoiceRecord :=
  applyQueryOverrides (parse_heuristic results) results.queries

/-- Batch extraction over a list of documents: the orchestrator runs the
per-document extraction independently on each block collection. -/
def parseBatch (docs : List Results) : List InvoiceRecord :=
  docs.map parse_extracted_data

/-! ## Specification-side helpers for the theorems -/

/-- The last element of a list, or a fallback for the empty list. -/
def lastOrElse (l : List α) (d : Option α) : Option α :=
  match l.getLast? with
  | some x => some x
  | none => d

/-- The stripped, non-blank cells of a data row lying in columns the
header row assigns to the field `f`, left to right. -/
def fieldCellWrites (f : FieldKind) (headers : List (Option FieldKind)) :
    List Text → Nat → List Text
  | [], _ => []
  | cell :: rest, i =>
    let tail := fieldCellWrites f headers rest (i + 1)
    match headers.getD i none with
    | some g => if g = f ∧ pyStrip cell ≠ [] then pyStrip cell :: tail else tail
    | none => tail

/-- The quantity value a stripped cell yields: the amount parser when it
is numeric, otherwise the direct float fallback. -/
def qtyVal (cv : Text) : Option Dec :=
  match (parse_amount_with_currency cv).value with
  | .num d => some d
  | _ => pyFloatFull cv

/-- The quantity values written by a data row: stripped, non-blank cells
in quantity columns that parse to a number, left to right. -/
def qtyWrites (headers : List (Option FieldKind)) : List Text → Nat → List Dec
  | [], _ => []
  | cell :: rest, i =>
    let tail := qtyWrites headers rest (i + 1)
    match headers.getD i none with
    | some .quantity =>
      if pyStrip cell ≠ [] then
        match qtyVal (pyStrip cell) with
        | some d => d :: tail
        | none => tail
      else tail
    | _ => tail

/-- The selection order of `pickHeader`: `x ≤ r` when `r` has more
matches, or equally many with an index not later than `x`. -/
def candLE (x r : HeaderCand) : Prop :=
  x.count < r.count ∨ (x.count = r.count ∧ r.idx ≤ x.idx)

/-- The strict replacement test of the `pickHeader` fold. -/
def candGT (b x : HeaderCand) : Prop :=
  b.count < x.count ∨ (b.count = x.count ∧ x.idx < b.idx)

/-! ## Concrete scenario fixtures used by the theorems -/

/-- The single-page table of the end-to-end scenario of the spec: header
row, one data row, one summary row. -/
def c2tables : TablesDict :=
  [(1, [(1, [(1, ofStr ("Description")), (2, ofStr ("Qty")), (3, ofStr ("Rate")), (4, ofStr ("Amount"))]),
        (2, [(1, ofStr ("Consulting")), (2, ofStr ("10")), (3, ofStr ("100.00")),
             (4, ofStr ("1,000.00"))]),
        (3, [(1, ofStr ("Subtotal")), (2, []), (3, []), (4, ofStr ("1,000.00"))])])]

/-- Key-value pairs of the total-priority scenario. -/
def c5kv : List (Text × Text) := [(ofStr ("grand total"), ofStr ("$500.00"))]

/-- Table totals of the total-priority scenario. -/
def c5tt : List (Text × Text) :=
  [(ofStr ("total fees and disbursements: $1000.00"),
    ofStr ("total fees and disbursements: $1000.00"))]

/-- The winning table-tier amount of the total-priority scenario. -/
def c5TableAmount : Amount :=
  ⟨.num ⟨false, 100000, 2⟩, ofStr ("$"), ofStr ("$ 1,000.00")⟩

/-- Query-override scenario: the heuristics see a form field with
invoice number INV-0001 while a query answered INV-9999. -/
def c6res : Results :=
  { layout := ⟨[], [], [], [], []⟩
    forms := [(ofStr ("Invoice Number"), ofStr ("INV-0001"))]
    tables := []
    queries := [(ofStr ("What is the invoice number?"), ofStr ("INV-9999"))] }

/-- Header tie-break scenario: no matches in row 0, two matches in each
of rows 1 and 2, none in row 3. -/
def c7rows : List (List Text) :=
  [[ofStr ("x"), ofStr ("y")], [ofStr ("qty"), ofStr ("rate")], [ofStr ("hours"), ofStr ("price")],
   [ofStr ("1"), ofStr ("2")]]

/-- The selected header candidate of the tie-break scenario: row 1. -/
def c7sel : HeaderCand := ⟨1, [some .quantity, some .unitprice], 2⟩

/-- A document with no key-value pairs, no tables, no queries and no
layout text. -/
def c8res : Results := ⟨⟨[], [], [], [], []⟩, [], [], []⟩

/-- Header assignment with two amount columns, for the duplicate-column
witness. -/
def c10headers : List (Option FieldKind) := [some .amount, some .amount]

/-- Data row for the duplicate-column witness. -/
def c10row : List Text := [ofStr ("100.00"), ofStr ("200.00")]

/-- The line item the duplicate-column witness row produces. -/
def c10item : LineItem :=
  ⟨none, none, none, some ⟨.num ⟨false, 20000, 2⟩, [], ofStr ("200.00")⟩⟩


/-! ## Helper lemmas -/

/-- The selection order is reflexive. -/
theorem candLE_refl (c : HeaderCand) : candLE c c := Or.inr ⟨rfl, Nat.le_refl _⟩

/-- The selection order is transitive. -/
theorem candLE_trans {a b c : HeaderCand} (h1 : candLE a b) (h2 : candLE b c) : candLE a c := by
  unfold candLE at h1 h2 ⊢
  omega

/-- A fold step never decreases the running best. -/
theorem candLE_of_step_left (b x : HeaderCand) : candLE b (pickStep b x) := by
  unfold pickStep
  split
  · next h => unfold candLE; omega
  · exact candLE_refl b

/-- A fold step dominates the scanned candidate. -/
theorem candLE_of_step_right (b x : HeaderCand) : candLE x (pickStep b x) := by
  unfold pickStep
  split
  · exact candLE_refl x
  · next h => unfold candLE at *; push_neg at h; omega

/-- A fold step returns one of its two arguments. -/
theorem pickStep_cases (b x : HeaderCand) : pickStep b x = b ∨ pickStep b x = x := by
  unfold pickStep
  split
  · exact Or.inr rfl
  · exact Or.inl rfl

/-- Specification of the `pickStep` fold: the result is the start value or
a scanned candidate and dominates all of them in the selection order. -/
theorem pickFold_spec (l : List HeaderCand) : ∀ b : HeaderCand,
    (l.foldl pickStep b = b ∨ l.foldl pickStep b ∈ l) ∧
    candLE b (l.foldl pickStep b) ∧
    ∀ x ∈ l, candLE x (l.foldl pickStep b) := by
  induction l with
  | nil =>
    intro b
    exact ⟨Or.inl rfl, candLE_refl b, by simp⟩
  | cons x rest ih =>
    intro b
    obtain ⟨hmem, hb, hall⟩ := ih (pickStep b x)
    simp only [List.foldl_cons]
    refine ⟨?_, ?_, ?_⟩
    · rcases hmem with h | h
      · rcases pickStep_cases b x with hc | hc
        · exact Or.inl (h.trans hc)
        · exact Or.inr (by rw [h, hc]; exact List.mem_cons_self x rest)
      · exact Or.inr (List.mem_cons_of_mem x h)
    · exact candLE_trans (candLE_of_step_left b x) hb
    · intro y hy
      rcases List.mem_cons.mp hy with h | h
      · subst h
        exact candLE_trans (candLE_of_step_right b y) hb
      · exact hall y h

/-- Peeling the head off `lastOrElse`. -/
theorem lastOrElse_cons (x : α) (l : List α) (d : Option α) :
    lastOrElse (x :: l) d = lastOrElse l (some x) := by
  cases l with
  | nil => rfl
  | cons y ys =>
    unfold lastOrElse
    rw [List.getLast?_cons_cons]
    cases hgl : (y :: ys).getLast? with
    | some z => rfl
    | none => exact absurd hgl (by simp)

/-- With no fallback, `lastOrElse` is the last element. -/
theorem lastOrElse_none (l : List α) : lastOrElse l (none : Option α) = l.getLast? := by
  unfold lastOrElse
  cases l.getLast? <;> rfl

/-- The cell loop of the line-item extraction implements last-write-wins
per field: relative to a start item, each final field equals the last
qualifying write of its column class, or the start value when that class
wrote nothing.  The hypothesis restricts to rows the loop accepted (a
summary-labelled description cell aborts with the meaningful flag false,
so accepted rows saw no abort). -/
theorem processCells_writes (headers : List (Option FieldKind)) :
    ∀ (cells : List Text) (i : Nat) (item0 : LineItem) (m0 : Bool) (item : LineItem),
      processCells headers cells i item0 m0 = (item, true) →
      item.Description =
        lastOrElse (fieldCellWrites .description headers cells i) item0.Description ∧
      item.Quantity = lastOrElse (qtyWrites headers cells i) item0.Quantity ∧
      item.UnitPrice =
        lastOrElse ((fieldCellWrites .unitprice headers cells i).map parse_amount_with_currency)
          item0.UnitPrice ∧
      item.Amount =
        lastOrElse ((fieldCellWrites .amount headers cells i).map parse_amount_with_currency)
          item0.Amount := by
  intro cells
  induction cells with
  | nil =>
    intro i item0 m0 item h
    simp only [processCells, Prod.mk.injEq] at h
    rw [← h.1]
    simp [fieldCellWrites, qtyWrites, lastOrElse]
  | cons cell rest ih =>
    intro i item0 m0 item h
    cases hg : headers.getD i none with
    | none =>
      simp only [processCells, hg] at h
      have hrec := ih (i + 1) item0 m0 item h
      have hd : fieldCellWrites .description headers (cell :: rest) i =
          fieldCellWrites .description headers rest (i + 1) := by
        simp [fieldCellWrites, ← List.getD_eq_getElem?_getD, hg]
      have hu : fieldCellWrites .unitprice headers (cell :: rest) i =
          fieldCellWrites .unitprice headers rest (i + 1) := by
        simp [fieldCellWrites, ← List.getD_eq_getElem?_getD, hg]
      have ham : fieldCellWrites .amount headers (cell :: rest) i =
          fieldCellWrites .amount headers rest (i + 1) := by
        simp [fieldCellWrites, ← List.getD_eq_getElem?_getD, hg]
      have hqw : qtyWrites headers (cell :: rest) i = qtyWrites headers rest (i + 1) := by
        simp [qtyWrites, ← List.getD_eq_getElem?_getD, hg]
      rw [hd, hu, ham, hqw]
      exact hrec
    | some f =>
      by_cases hcv : pyStrip cell = []
      · simp only [processCells, hg] at h
        rw [if_pos hcv] at h
        have hrec := ih (i + 1) item0 m0 item h
        have hd : fieldCellWrites .description headers (cell :: rest) i =
            fieldCellWrites .description headers rest (i + 1) := by
          simp [fieldCellWrites, ← List.getD_eq_getElem?_getD, hg, hcv]
        have hu : fieldCellWrites .unitprice headers (cell :: rest) i =
            fieldCellWrites .unitprice headers rest (i + 1) := by
          simp [fieldCellWrites, ← List.getD_eq_getElem?_getD, hg, hcv]
        have ham : fieldCellWrites .amount headers (cell :: rest) i =
            fieldCellWrites .amount headers rest (i + 1) := by
          simp [fieldCellWrites, ← List.getD_eq_getElem?_getD, hg, hcv]
        have hqw : qtyWrites headers (cell :: rest) i = qtyWrites headers rest (i + 1) := by
          cases f <;> simp [qtyWrites, ← List.getD_eq_getElem?_getD, hg, hcv]
        rw [hd, hu, ham, hqw]
        exact hrec
      · have hu0 : ∀ f2 : FieldKind, f2 ≠ f →
            fieldCellWrites f2 headers (cell :: rest) i =
              fieldCellWrites f2 headers rest (i + 1) := by
          intro f2 hne
          simp only [fieldCellWrites, ← List.getD_eq_getElem?_getD, hg]
          rw [if_neg (fun hc => hne hc.1.symm)]
        have hw : fieldCellWrites f headers (cell :: rest) i =
            pyStrip cell :: fieldCellWrites f headers rest (i + 1) := by
          simp [fieldCellWrites, ← List.getD_eq_getElem?_getD, hg, hcv]
        cases f with
        | description =>
          simp only [processCells, hg] at h
          rw [if_neg hcv] at h
          by_cases hs : (SUMMARY_INDICATORS.any
              fun ind => occursIn ind (toLowerT (pyStrip cell))) = true
          · rw [if_pos hs] at h
            exact absurd (congrArg Prod.snd h) (by simp)
          · rw [if_neg hs] at h
            have hrec := ih (i + 1) _ _ item h
            obtain ⟨h1, h2, h3, h4⟩ := hrec
            refine ⟨?_, ?_, ?_, ?_⟩
            · rw [hw, lastOrElse_cons]
              exact h1
            · rw [show qtyWrites headers (cell :: rest) i =
                  qtyWrites headers rest (i + 1) from by
                    simp [qtyWrites, ← List.getD_eq_getElem?_getD, hg]]
              exact h2
            · rw [hu0 .unitprice (by simp)]
              exact h3
            · rw [hu0 .amount (by simp)]
              exact h4
        | quantity =>
          simp only [processCells, hg] at h
          rw [if_neg hcv] at h
          have hqd : ∀ d : Dec, qtyVal (pyStrip cell) = some d →
              qtyWrites headers (cell :: rest) i =
                d :: qtyWrites headers rest (i + 1) := by
            intro d hqv
            simp [qtyWrites, ← List.getD_eq_getElem?_getD, hg, hcv, hqv]
          have hqn : qtyVal (pyStrip cell) = none →
              qtyWrites headers (cell :: rest) i = qtyWrites headers rest (i + 1) := by
            intro hqv
            simp [qtyWrites, ← List.getD_eq_getElem?_getD, hg, hcv, hqv]
          cases hq : (parse_amount_with_currency (pyStrip cell)).value with
          | num d =>
            rw [hq] at h
            have hrec := ih (i + 1) _ _ item h
            obtain ⟨h1, h2, h3, h4⟩ := hrec
            refine ⟨?_, ?_, ?_, ?_⟩
            · rw [hu0 .description (by simp)]
              exact h1
            · rw [hqd d (by simp [qtyVal, hq]), lastOrElse_cons]
              exact h2
            · rw [hu0 .unitprice (by simp)]
              exact h3
            · rw [hu0 .amount (by simp)]
              exact h4
          | str s =>
            rw [hq] at h
            cases hf : pyFloatFull (pyStrip cell) with
            | some d =>
              rw [hf] at h
              have hrec := ih (i + 1) _ _ item h
              obtain ⟨h1, h2, h3, h4⟩ := hrec
              refine ⟨?_, ?_, ?_, ?_⟩
              · rw [hu0 .description (by simp)]
                exact h1
              · rw [hqd d (by simp [qtyVal, hq, hf]), lastOrElse_cons]
                exact h2
              · rw [hu0 .unitprice (by simp)]
                exact h3
              · rw [hu0 .amount (by simp)]
                exact h4
            | none =>
              rw [hf] at h
              have hrec := ih (i + 1) item0 m0 item h
              obtain ⟨h1, h2, h3, h4⟩ := hrec
              refine ⟨?_, ?_, ?_, ?_⟩
              · rw [hu0 .description (by simp)]
                exact h1
              · rw [hqn (by simp [qtyVal, hq, hf])]
                exact h2
              · rw [hu0 .unitprice (by simp)]
                exact h3
              · rw [hu0 .amount (by simp)]
                exact h4
          | null =>
            rw [hq] at h
            cases hf : pyFloatFull (pyStrip cell) with
            | some d =>
              rw [hf] at h
              have hrec := ih (i + 1) _ _ item h
              obtain ⟨h1, h2, h3, h4⟩ := hrec
              refine ⟨?_, ?_, ?_, ?_⟩
              · rw [hu0 .description (by simp)]
                exact h1
              · rw [hqd d (by simp [qtyVal, hq, hf]), lastOrElse_cons]
                exact h2
              · rw [hu0 .unitprice (by simp)]
                exact h3
              · rw [hu0 .amount (by simp)]
                exact h4
            | none =>
              rw [hf] at h
              have hrec := ih (i + 1) item0 m0 item h
              obtain ⟨h1, h2, h3, h4⟩ := hrec
              refine ⟨?_, ?_, ?_, ?_⟩
              · rw [hu0 .description (by simp)]
                exact h1
              · rw [hqn (by simp [qtyVal, hq, hf])]
                exact h2
              · rw [hu0 .unitprice (by simp)]
                exact h3
              · rw [hu0 .amount (by simp)]
                exact h4
        | unitprice =>
          simp only [processCells, hg] at h
          rw [if_neg hcv] at h
          have hrec := ih (i + 1) _ _ item h
          obtain ⟨h1, h2, h3, h4⟩ := hrec
          refine ⟨?_, ?_, ?_, ?_⟩
          · rw [hu0 .description (by simp)]
            exact h1
          · rw [show qtyWrites headers (cell :: rest) i =
                qtyWrites headers rest (i + 1) from by
                  simp [qtyWrites, ← List.getD_eq_getElem?_getD, hg]]
            exact h2
          · rw [hw, List.map_cons, lastOrElse_cons]
            exact h3
          · rw [hu0 .amount (by simp)]
            exact h4
        | amount =>
          simp only [processCells, hg] at h
          rw [if_neg hcv] at h
          have hrec := ih (i + 1) _ _ item h
          obtain ⟨h1, h2, h3, h4⟩ := hrec
          refine ⟨?_, ?_, ?_, ?_⟩
          · rw [hu0 .description (by simp)]
            exact h1
          · rw [show qtyWrites headers (cell :: rest) i =
                qtyWrites headers rest (i + 1) from by
                  simp [qtyWrites, ← List.getD_eq_getElem?_getD, hg]]
            exact h2
          · rw [hu0 .unitprice (by simp)]
            exact h3
          · rw [hw, List.map_cons, lastOrElse_cons]
            exact h4


/-! ## The claims -/

/-- Claim C1.  Amount parser decimal disambiguation.  The code strips
commas before the multi-dot check, so the comma-decimal input "1.234,56"
collapses to "1.23456" with a single dot and parses to 1.23456, not the
1234.56 the claim (and the function docstring) state; "1.234.567" and
"45.00" behave as claimed. -/
theorem c1_decimal_disambiguation :
    (clean_currency_text (ofStr ("1.234,56"))).1 = some ⟨false, 123456, 5⟩ ∧
    Dec.toRat ⟨false, 123456, 5⟩ = 1.23456 ∧ Dec.toRat ⟨false, 123456, 5⟩ ≠ 1234.56 ∧
    (clean_currency_text (ofStr ("1.234.567"))).1 = some ⟨false, 1234567, 0⟩ ∧
    Dec.toRat ⟨false, 1234567, 0⟩ = 1234567 ∧
    (clean_currency_text (ofStr ("45.00"))).1 = some ⟨false, 4500, 2⟩ ∧
    Dec.toRat ⟨false, 4500, 2⟩ = 45 :=
  ⟨by decide, by norm_num [Dec.toRat], by norm_num [Dec.toRat], by decide,
   by norm_num [Dec.toRat], by decide, by norm_num [Dec.toRat]⟩

/-- Claim C2.  End-to-end line-item scenario.  The header cell "Amount"
matches the synonym "amount" in the quantity list, which precedes the
amount list, so its column is assigned to quantity: the emitted item has
Description "Consulting", UnitPrice 100.0, Quantity 1000.0 (the amount
cell overwrote the 10.0) and no Amount entry, against the claimed
Quantity 10.0 and Amount 1000.0. -/
theorem c2_end_to_end :
    extract_line_items_from_tables c2tables =
      [⟨some (ofStr ("Consulting")), some ⟨false, 100000, 2⟩,
        some ⟨.num ⟨false, 10000, 2⟩, [], ofStr ("100.00")⟩, none⟩] ∧
    Dec.toRat ⟨false, 100000, 2⟩ = 1000 ∧ Dec.toRat ⟨false, 10000, 2⟩ = 100 ∧
    (1000 : ℚ) ≠ 10 :=
  ⟨by decide, by norm_num [Dec.toRat], by norm_num [Dec.toRat], by norm_num⟩

/-- Claim C3.  Currency detection on "€ 1.250,00": the currency "€" is
detected as claimed, but the comma is stripped before the multi-dot check,
so the value parses to 1.25, not the claimed 1250.0. -/
theorem c3_currency_detection :
    parse_amount_with_currency (ofStr ("€ 1.250,00")) =
      ⟨.num ⟨false, 125000, 5⟩, ofStr ("€"), ofStr ("€ 1.25")⟩ ∧
    Dec.toRat ⟨false, 125000, 5⟩ = 1.25 ∧ (1.25 : ℚ) ≠ 1250 :=
  ⟨by decide, by norm_num [Dec.toRat], by norm_num⟩

/-- Claim C4, counterexample.  On the unparseable input "$" the parser
detects the currency "$" yet returns an empty currency field, against the
claim that the detected currency is returned on failure. -/
theorem c4_counterexample :
    (clean_currency_text (ofStr ("$"))).2 = ofStr ("$") ∧
    (clean_currency_text (ofStr ("$"))).1 = none ∧
    (parse_amount_with_currency (ofStr ("$"))).currency = [] ∧
    ¬ (parse_amount_with_currency (ofStr ("$"))).currency = ofStr ("$") := by
  decide

/-- Claim C4, amended.  For every non-empty input from which no number
can be extracted, the parser returns the original text as the value
sentinel, an empty currency (even when a symbol was detected), and the
input itself as the formatted string. -/
theorem c4_amended (t : Text) (hne : t ≠ []) (hfail : (clean_currency_text t).1 = none) :
    parse_amount_with_currency t = ⟨.str t, [], t⟩ := by
  unfold parse_amount_with_currency
  rw [if_neg hne]
  rcases h : clean_currency_text t with ⟨v, cur⟩
  rw [h] at hfail
  simp only at hfail
  subst hfail
  rfl

/-- Claim C4, witness for the amended statement at the input "$". -/
theorem c4_amended_witness :
    (ofStr ("$") ≠ ([] : Text)) ∧
    parse_amount_with_currency (ofStr ("$")) = ⟨.str (ofStr ("$")), [], ofStr ("$")⟩ :=
  ⟨by decide, c4_amended (ofStr ("$")) (by decide) (by decide)⟩

/-- Claim C5.  Invoice-total priority: the kv pair "grand total" →
"$500.00" yields tier A priority 14 (9 + 5 exact-match boost), the table
total "total fees and disbursements: $1000.00" yields priority 25
(15 + 10), the table candidate wins for every surrounding document text,
and in general the tier B best replaces the tier A best exactly when its
priority is strictly greater. -/
theorem c5_total_priority :
    (∀ all_text : Text, find_invoice_total c5kv c5tt all_text = c5TableAmount) ∧
    Dec.toRat ⟨false, 100000, 2⟩ = 1000 ∧
    (kv_best c5kv).2 = 14 ∧
    pickBestCand (table_candidates c5tt) = some (c5TableAmount, 25) ∧
    (∀ (kv tt : List (Text × Text)) (a : Amount) (p : Nat),
      pickBestCand (table_candidates tt) = some (a, p) →
      (((kv_best kv).2 < p → bestAfterAB kv tt = (some a, p)) ∧
       (p ≤ (kv_best kv).2 → bestAfterAB kv tt = kv_best kv))) := by
  refine ⟨fun _ => rfl, by norm_num [Dec.toRat], by decide, by decide, ?_⟩
  intro kv tt a p h
  unfold bestAfterAB
  rw [h]
  constructor
  · intro hlt
    simp only [if_pos hlt]
  · intro hle
    simp only [if_neg (Nat.not_lt.mpr hle)]

/-- Claim C5, witness: the concrete tier comparison applied through the
general replacement rule. -/
theorem c5_witness :
    bestAfterAB c5kv c5tt = (some c5TableAmount, 25) :=
  (c5_total_priority.2.2.2.2 c5kv c5tt c5TableAmount 25 (by decide)).1 (by decide)

/-- Claim C6.  Query override: a recognized question with a non-empty
answer overwrites the corresponding heuristic field whatever its prior
value (no confidence is consulted); the total-amount answer only when it
parses to a numeric amount; the full pipeline is the heuristic stage
followed by this override; concretely, the query answer INV-9999
overrides the heuristically found INV-0001. -/
theorem c6_query_override :
    (∀ (parsed : InvoiceRecord) (a : Text), a ≠ [] →
      (applyQueryOverrides parsed [(QUERY_INVOICE_NUMBER, a)]).InvoiceNumber = some a ∧
      (applyQueryOverrides parsed [(QUERY_INVOICE_DATE, a)]).InvoiceDate = some a ∧
      (applyQueryOverrides parsed [(QUERY_PAYMENT_TERMS, a)]).PaymentTerms = some a ∧
      (applyQueryOverrides parsed [(QUERY_TOTAL_AMOUNT, a)]).InvoiceTotal =
        (if (parse_amount_with_currency a).value.isNum then parse_amount_with_currency a
         else parsed.InvoiceTotal)) ∧
    (∀ results : Results, parse_extracted_data results =
      applyQueryOverrides (parse_heuristic results) results.queries) ∧
    (parse_heuristic c6res).InvoiceNumber = some (ofStr ("INV-0001")) ∧
    (parse_extracted_data c6res).InvoiceNumber = some (ofStr ("INV-9999")) := by
  refine ⟨?_, fun _ => rfl, by decide, by decide⟩
  intro parsed a ha
  have h1 : QUERY_INVOICE_NUMBER ≠ QUERY_TOTAL_AMOUNT := by decide
  have h2 : QUERY_INVOICE_DATE ≠ QUERY_TOTAL_AMOUNT := by decide
  have h3 : QUERY_INVOICE_DATE ≠ QUERY_INVOICE_NUMBER := by decide
  have h4 : QUERY_PAYMENT_TERMS ≠ QUERY_TOTAL_AMOUNT := by decide
  have h5 : QUERY_PAYMENT_TERMS ≠ QUERY_INVOICE_NUMBER := by decide
  have h6 : QUERY_PAYMENT_TERMS ≠ QUERY_INVOICE_DATE := by decide
  refine ⟨?_, ?_, ?_, ?_⟩
  · simp [applyQueryOverrides, ha, h1]
  · simp [applyQueryOverrides, ha, h2, h3]
  · simp [applyQueryOverrides, ha, h4, h5, h6]
  · have h7 : QUERY_TOTAL_AMOUNT ≠ QUERY_INVOICE_NUMBER := by decide
    have h8 : QUERY_TOTAL_AMOUNT ≠ QUERY_INVOICE_DATE := by decide
    cases h : (parse_amount_with_currency a).value.isNum
    · simp [applyQueryOverrides, ha, h, h7, h8]
    · simp [applyQueryOverrides, ha, h, h7, h8]

/-- Claim C6, witness: the override applied to a concrete record and
answer. -/
theorem c6_witness :
    (applyQueryOverrides defaultRecord
        [(QUERY_INVOICE_NUMBER, ofStr ("INV-9999"))]).InvoiceNumber =
      some (ofStr ("INV-9999")) :=
  (c6_query_override.1 defaultRecord (ofStr ("INV-9999")) (by decide)).1

/-- Claim C7.  Header selection: among the qualifying candidates of the
first four rows the selected row has maximal match count, ties going to
the lower row index; concretely, equal counts at indices 1 and 2 select
row 1. -/
theorem c7_header_selection :
    (∀ (rows : List (List Text)) (sel : HeaderCand),
      pickHeader (potential_headers rows) = some sel →
      sel ∈ potential_headers rows ∧
      ∀ c ∈ potential_headers rows,
        c.count < sel.count ∨ (c.count = sel.count ∧ sel.idx ≤ c.idx)) ∧
    potential_headers c7rows =
      [⟨1, [some .quantity, some .unitprice], 2⟩, ⟨2, [some .quantity, some .unitprice], 2⟩] ∧
    pickHeader (potential_headers c7rows) = some c7sel := by
  refine ⟨?_, by decide, by decide⟩
  intro rows sel h
  cases hc : potential_headers rows with
  | nil =>
    rw [hc] at h
    exact absurd h (by simp [pickHeader])
  | cons c rest =>
    rw [hc] at h
    simp only [pickHeader, Option.some.injEq] at h
    obtain ⟨hmem, hb, hall⟩ := pickFold_spec rest c
    rw [h] at hmem hb hall
    constructor
    · rcases hmem with h1 | h1
      · rw [h1]
        exact List.mem_cons_self c rest
      · exact List.mem_cons_of_mem c h1
    · intro x hx
      rcases List.mem_cons.mp hx with h1 | h1
      · subst h1
        exact hb
      · exact hall x h1

/-- Claim C7, witness: the tie-break scenario run through the general
selection property. -/
theorem c7_witness :
    c7sel ∈ potential_headers c7rows ∧
    ∀ c ∈ potential_headers c7rows,
      c.count < c7sel.count ∨ (c.count = c7sel.count ∧ c7sel.idx ≤ c.idx) :=
  c7_header_selection.1 c7rows c7sel (by decide)

/-- Claim C8.  Structural absence: a document with no key-value pairs, no
tables, no queries and no layout text resolves to the record with all
five fields at their null/empty defaults (the record type always carries
exactly the five fields, and the embedding is a total function). -/
theorem c8_structural_absence (results : Results)
    (hl : results.layout = ⟨[], [], [], [], []⟩) (hf : results.forms = [])
    (ht : results.tables = []) (hq : results.queries = []) :
    parse_extracted_data results = defaultRecord := by
  obtain ⟨l, f, t, q⟩ := results
  simp only at hl hf ht hq
  subst hl hf ht hq
  decide

/-- Claim C8, witness: the empty document. -/
theorem c8_witness : parse_extracted_data c8res = defaultRecord :=
  c8_structural_absence c8res rfl rfl rfl rfl

/-- Claim C9.  Determinism and independence: in a batch, the record of
each document depends only on that document (same block collection, same
record, at any position and in any company of other documents). -/
theorem c9_determinism :
    (∀ (docs : List Results) (i : Nat) (r : Results), docs.get? i = some r →
      (parseBatch docs).get? i = some (parse_extracted_data r)) ∧
    (∀ (docs : List Results) (i j : Nat) (r : Results), docs.get? i = some r →
      docs.get? j = some r → (parseBatch docs).get? i = (parseBatch docs).get? j) := by
  constructor
  · intro docs i r h
    rw [parseBatch, List.get?_map, h]
    rfl
  · intro docs i j r hi hj
    rw [parseBatch, List.get?_map, List.get?_map, hi, hj]

/-- Claim C9, witness: a one-document batch. -/
theorem c9_witness :
    (parseBatch [c8res]).get? 0 = some (parse_extracted_data c8res) :=
  c9_determinism.1 [c8res] 0 c8res rfl

/-- Claim C10.  Duplicate-column behaviour: for every accepted data row,
each emitted field equals the parse of the last (rightmost) non-blank
cell among the columns the header assigns to that field — for Quantity,
the last cell that parses to a number — earlier writes being silently
overwritten. -/
theorem c10_rightmost_wins :
    ∀ (headers : List (Option FieldKind)) (row : List Text) (item : LineItem),
      processDataRow headers row = some item →
      item.Description = (fieldCellWrites .description headers row 0).getLast? ∧
      item.Quantity = (qtyWrites headers row 0).getLast? ∧
      item.UnitPrice =
        ((fieldCellWrites .unitprice headers row 0).map parse_amount_with_currency).getLast? ∧
      item.Amount =
        ((fieldCellWrites .amount headers row 0).map parse_amount_with_currency).getLast? := by
  intro headers row item h
  unfold processDataRow at h
  by_cases hblank : ¬ row.any (fun cell => pyStrip cell ≠ [])
  · rw [if_pos hblank] at h
    exact absurd h (by simp)
  · rw [if_neg hblank] at h
    by_cases hsum : is_summary_row row = true
    · rw [if_pos hsum] at h
      exact absurd h (by simp)
    · rw [if_neg hsum] at h
      rcases hp : processCells headers row 0 LineItem.empty false with ⟨item2, m2⟩
      rw [hp] at h
      cases m2 with
      | false => exact absurd h (by simp)
      | true =>
        have hit : item2 = item := by simpa using h
        subst hit
        have hrec := processCells_writes headers row 0 LineItem.empty false item2 hp
        simpa [LineItem.empty, lastOrElse_none] using hrec

/-- Claim C10, witness: two amount columns with cells "100.00" and
"200.00"; the emitted Amount is the parse of the rightmost cell. -/
theorem c10_witness :
    (processDataRow c10headers c10row = some c10item) ∧
    c10item.Description = (fieldCellWrites .description c10headers c10row 0).getLast? ∧
    c10item.Quantity = (qtyWrites c10headers c10row 0).getLast? ∧
    c10item.UnitPrice =
      ((fieldCellWrites .unitprice c10headers c10row 0).map parse_amount_with_currency).getLast? ∧
    c10item.Amount =
      ((fieldCellWrites .amount c10headers c10row 0).map parse_amount_with_currency).getLast? :=
  ⟨by decide, c10_rightmost_wins c10headers c10row c10item (by decide)⟩

end Invoice
